import Mathlib

/-!
Shallow embedding of the combination-recognizer and keyboard-layout parts of
the key-mapper repository:
* `src/inputremapper/injection/mapping_handlers/combination_handler.py`
  (`CombinationHandler`), and
* `src/keymapper/state.py` (`SystemMapping`).

Python dicts are embedded as association lists with insertion-order
semantics: assignment updates the first binding in place or appends a new
binding at the end, lookup returns the first binding, `pop`/`del` removes
the first binding.  The sub-handler is embedded as a pure result function
`subNotify : InputEvent → Bool → Bool`; every call to it and every
forwarder `write`/`syn` is recorded as an element of an effect trace.
-/

namespace KeyMapper

/-- Python dict lookup `d.get(k)`: first binding for the key. -/
def alGet {α β : Type} [DecidableEq α] : List (α × β) → α → Option β
  | [], _ => none
  | (k, v) :: rest, a => if k = a then some v else alGet rest a

/-- Python dict assignment `d[k] = v`: update the first binding in place,
otherwise append a new binding at the end (insertion order). -/
def alSet {α β : Type} [DecidableEq α] : List (α × β) → α → β → List (α × β)
  | [], a, b => [(a, b)]
  | (k, v) :: rest, a, b =>
    if k = a then (a, b) :: rest else (k, v) :: alSet rest a b

/-- Python `d.pop(k, default)` / `del d[k]` (removal part): drop the first
binding for the key. -/
def alRemove {α β : Type} [DecidableEq α] : List (α × β) → α → List (α × β)
  | [], _ => []
  | (k, v) :: rest, a => if k = a then rest else (k, v) :: alRemove rest a

/-- One element of a user combination (`InputConfig`): type, code, optional
origin-device hash, and the identity hash used to match incoming events. -/
structure InputConfig where
  type : Nat
  code : Nat
  origin_hash : Option Nat
  input_match_hash : Nat
deriving DecidableEq, Repr

def InputConfig.type_and_code (c : InputConfig) : Nat × Nat := (c.type, c.code)

/-- A normalized input event (`InputEvent`): type, code, value and the
identity hash `input_match_hash`. -/
structure InputEvent where
  type : Nat
  code : Nat
  value : Int
  input_match_hash : Nat
deriving DecidableEq, Repr

def InputEvent.type_and_code (e : InputEvent) : Nat × Nat := (e.type, e.code)

/-- The mutable state of one `CombinationHandler`:
`_pressed_keys`, `_output_previously_active`, `_requires_a_release`. -/
structure CombinationState where
  pressed : List (Nat × Bool)
  output_previously_active : Bool
  requires_a_release : List ((Nat × Nat) × Bool)
deriving DecidableEq, Repr

/-- The immutable configuration of one `CombinationHandler`: the ordered
combination, the mapping flag `release_combination_keys`, and the
sub-handler embedded as its pure result function. -/
structure CombinationHandler where
  combination : List InputConfig
  release_combination_keys : Bool
  subNotify : InputEvent → Bool → Bool

/-- `self._handled_input_hashes`. -/
def CombinationHandler.handled_input_hashes (h : CombinationHandler) : List Nat :=
  h.combination.map (fun c => c.input_match_hash)

/-- The `__init__` loop that fills `_pressed_keys` with `False` for every
config of the combination. -/
def CombinationHandler.initState (h : CombinationHandler) : CombinationState :=
  { pressed := h.combination.foldl (fun m c => alSet m c.input_match_hash false) []
    output_previously_active := false
    requires_a_release := [] }

/-- Observable side effects of one `notify` call: calls to the sub-handler
and `write`/`syn` calls on a forwarder uinput. -/
inductive Effect where
  | subCall (event : InputEvent) (suppress : Bool)
  | write (origin : Nat) (type code : Nat) (value : Int)
  | syn (origin : Nat)
deriving DecidableEq, Repr

/-- `_is_activated`: `False not in self._pressed_keys.values()`. -/
def CombinationState.is_activated (s : CombinationState) : Bool :=
  s.pressed.all (fun kv => kv.2)

/-- The loop of `_forward_release` over `self.mapping.input_combination`,
restricted by the `filter` to configs whose pressed entry is truthy.
Returns the final `_requires_a_release` and the write/syn effects. -/
def forwardReleaseLoop (pressed : List (Nat × Bool)) :
    List InputConfig → List ((Nat × Nat) × Bool) →
    List ((Nat × Nat) × Bool) × List Effect
  | [], req => (req, [])
  | cfg :: rest, req =>
    if (alGet pressed cfg.input_match_hash).getD false then
      if (alGet req cfg.type_and_code).getD false then
        match cfg.origin_hash with
        | some origin =>
          let step := forwardReleaseLoop pressed rest (alRemove req cfg.type_and_code)
          (step.1, Effect.write origin cfg.type cfg.code 0 :: Effect.syn origin :: step.2)
        | none => forwardReleaseLoop pressed rest req
      else forwardReleaseLoop pressed rest req
    else forwardReleaseLoop pressed rest req

/-- `_forward_release`: no-op when the pressed map has a single key or
`release_combination_keys` is not set, otherwise the sweep. -/
def CombinationHandler.forward_release (h : CombinationHandler)
    (s : CombinationState) : CombinationState × List Effect :=
  if s.pressed.length = 1 ∨ h.release_combination_keys = false then (s, [])
  else
    let r := forwardReleaseLoop s.pressed h.combination s.requires_a_release
    ({ s with requires_a_release := r.1 }, r.2)

/-- Return value, new state and effect trace of one `notify` call. -/
structure NotifyResult where
  result : Bool
  state : CombinationState
  effects : List Effect
deriving DecidableEq, Repr

/-- `_should_release_event`: `self._requires_a_release.pop(event.type_and_code, False)`;
returns the popped value and the state with the entry removed. -/
def should_release_event (s : CombinationState) (event : InputEvent) :
    Bool × CombinationState :=
  ((alGet s.requires_a_release event.type_and_code).getD false,
   { s with requires_a_release := alRemove s.requires_a_release event.type_and_code })

/-- `_handle_no_change_press`. -/
def handle_no_change_press (s : CombinationState) (event : InputEvent) :
    NotifyResult :=
  { result := s.output_previously_active,
    state := { s with
               requires_a_release := alSet s.requires_a_release
                 event.type_and_code (!s.output_previously_active) },
    effects := [] }

/-- `_handle_no_change_release`. -/
def handle_no_change_release (s : CombinationState) (event : InputEvent) :
    NotifyResult :=
  let p := should_release_event s event
  { result := !p.1, state := p.2, effects := [] }

/-- `_handle_freshly_activated`. -/
def CombinationHandler.handle_freshly_activated (h : CombinationHandler)
    (s : CombinationState) (event : InputEvent) (suppress : Bool) : NotifyResult :=
  if suppress then { result := false, state := s, effects := [] }
  else
    let fr := h.forward_release s
    let s1 := { fr.1 with output_previously_active := decide (event.value ≠ 0) }
    let subResult := h.subNotify event suppress
    { result := subResult,
      state := { s1 with
                 requires_a_release := alSet s1.requires_a_release
                   event.type_and_code (!subResult) },
      effects := fr.2 ++ [Effect.subCall event suppress] }

/-- `_handle_freshly_deactivated`: always calls the sub-handler with
`suppress=False`. -/
def CombinationHandler.handle_freshly_deactivated (_h : CombinationHandler)
    (s : CombinationState) (event : InputEvent) : NotifyResult :=
  let s1 := { s with output_previously_active := decide (event.value ≠ 0) }
  let p := should_release_event s1 event
  { result := !p.1, state := p.2, effects := [Effect.subCall event false] }

/-- The state-update line of `notify`:
`self._pressed_keys[event.input_match_hash] = (event.value == 1)`. -/
def pressedUpdate (s : CombinationState) (event : InputEvent) : CombinationState :=
  { s with pressed := alSet s.pressed event.input_match_hash (event.value == 1) }

/-- `CombinationHandler.notify`. -/
def CombinationHandler.notify (h : CombinationHandler) (s : CombinationState)
    (event : InputEvent) (suppress : Bool) : NotifyResult :=
  if event.input_match_hash ∈ h.handled_input_hashes then
    let is_pressed : Bool := event.value == 1
    let s0 := pressedUpdate s event
    let changed := s0.is_activated != s0.output_previously_active
    if changed then
      if is_pressed then h.handle_freshly_activated s0 event suppress
      else h.handle_freshly_deactivated s0 event
    else
      if is_pressed then handle_no_change_press s0 event
      else handle_no_change_release s0 event
  else
    { result := false, state := s, effects := [] }

/-- `CombinationHandler.reset` (the part acting on this handler's own
state; the recursive sub-handler reset carries no state in this model). -/
def CombinationHandler.reset (s : CombinationState) : CombinationState :=
  { pressed := s.pressed.map (fun kv => (kv.1, false))
    output_previously_active := false
    requires_a_release := [] }

/-- Run `notify` over a list of (event, suppress) pairs, accumulating the
effect trace. -/
def CombinationHandler.notifyTrace (h : CombinationHandler) :
    CombinationState → List (InputEvent × Bool) → CombinationState × List Effect
  | s, [] => (s, [])
  | s, (e, sup) :: rest =>
    let r := h.notify s e sup
    let t := h.notifyTrace r.state rest
    (t.1, r.effects ++ t.2)

/-- `SystemMapping` state (`src/keymapper/state.py`): `_mapping` (name to
code), `_allocated_unknowns` (code to name), `_occupied_keycodes`. -/
structure SystemMapping where
  mapping : List (String × Nat)
  allocated_unknowns : List (Nat × String)
  occupied_keycodes : List Nat
deriving DecidableEq, Repr

/-- Python's `str.lower()` on the character sequence of a string. -/
def pyLower (s : String) : String :=
  String.mk (s.data.map Char.toLower)

/-- `SystemMapping.get`: `self._mapping.get(str(name).lower())`. -/
def SystemMapping.get (m : SystemMapping) (name : String) : Option Nat :=
  alGet m.mapping (pyLower name)

/-- The loop `for code, key in self._allocated_unknowns.items()` of
`get_or_allocate`: first code already allocated for this character. -/
def findAllocated : List (Nat × String) → String → Option Nat
  | [], _ => none
  | (code, key) :: rest, ch =>
    if key = ch then some code else findAllocated rest ch

/-- The loop `for code in range(256)` of `get_or_allocate`: first code not
in `_occupied_keycodes`. -/
def findFreeCode (occupied : List Nat) : List Nat → Option Nat
  | [] => none
  | c :: rest => if c ∈ occupied then findFreeCode occupied rest else some c

/-- `SystemMapping.get_or_allocate`.  `none` stands for the raised
`Exception('Unknown character and no keycode free')`. -/
def SystemMapping.get_or_allocate (m : SystemMapping) (character : String) :
    Option (Nat × SystemMapping) :=
  let ch := pyLower character
  match alGet m.mapping ch with
  | some code => some (code, m)
  | none =>
    match findAllocated m.allocated_unknowns ch with
    | some code => some (code, m)
    | none =>
      match findFreeCode m.occupied_keycodes (List.range 256) with
      | some code =>
        some (code, { m with allocated_unknowns := alSet m.allocated_unknowns code ch })
      | none => none

/-- Number of sub-handler calls recorded in an effect trace. -/
def countSubCalls (effs : List Effect) : Nat :=
  (effs.filter fun eff =>
    match eff with
    | Effect.subCall _ _ => true
    | _ => false).length

/-- Modelled from the spec wording of the release sweep (§4.1.1 step 1 and
§7 of the spec): visit the combination in order; for every config whose
pressed entry is true and whose `requires_release[(t,c)]` entry is true,
emit a release to the forwarder of its origin device and clear the entry;
a config without an `origin_hash` is skipped with its entry kept. -/
def releaseSweepClaimLoop (pressed : List (Nat × Bool)) :
    List InputConfig → List ((Nat × Nat) × Bool) →
    List ((Nat × Nat) × Bool) × List Effect
  | [], req => (req, [])
  | cfg :: rest, req =>
    if alGet pressed cfg.input_match_hash = some true
        ∧ alGet req cfg.type_and_code = some true then
      match cfg.origin_hash with
      | some origin =>
        let step := releaseSweepClaimLoop pressed rest (alRemove req cfg.type_and_code)
        (step.1, Effect.write origin cfg.type cfg.code 0 :: Effect.syn origin :: step.2)
      | none => releaseSweepClaimLoop pressed rest req
    else releaseSweepClaimLoop pressed rest req

/-- Modelled from the spec wording: the release sweep does nothing when the
combination has exactly one key or `release_combination_keys` is not set,
and otherwise sweeps the combination in order. -/
def releaseSweepClaim (h : CombinationHandler) (s : CombinationState) :
    CombinationState × List Effect :=
  if h.combination.length = 1 ∨ h.release_combination_keys = false then (s, [])
  else
    let r := releaseSweepClaimLoop s.pressed h.combination s.requires_a_release
    ({ s with requires_a_release := r.1 }, r.2)

/-! ### Concrete instances used in the end-to-end scenario -/

/-- Key A of the two-key scenario (§8 scenario 1 of the spec). -/
def cfgA : InputConfig :=
  { type := 1, code := 30, origin_hash := some 10, input_match_hash := 100 }

/-- Key B of the two-key scenario. -/
def cfgB : InputConfig :=
  { type := 1, code := 48, origin_hash := some 11, input_match_hash := 101 }

/-- Handler for the combination `{A, B}` with `release_combination_keys`
set and a sub-handler whose `notify` always returns true. -/
def twoKeyHandler : CombinationHandler :=
  { combination := [cfgA, cfgB], release_combination_keys := true,
    subNotify := fun _ _ => true }

/-- An event for key A with the given value. -/
def evA (v : Int) : InputEvent :=
  { type := 1, code := 30, value := v, input_match_hash := 100 }

/-- An event for key B with the given value. -/
def evB (v : Int) : InputEvent :=
  { type := 1, code := 48, value := v, input_match_hash := 101 }

/-- Scenario step 1: `A↓` on the fresh handler. -/
def step1 : NotifyResult := twoKeyHandler.notify twoKeyHandler.initState (evA 1) false

/-- Scenario step 2: `B↓`. -/
def step2 : NotifyResult := twoKeyHandler.notify step1.state (evB 1) false

/-- Scenario step 3: `B↑`. -/
def step3 : NotifyResult := twoKeyHandler.notify step2.state (evB 0) false

/-- Scenario step 4: `A↑`. -/
def step4 : NotifyResult := twoKeyHandler.notify step3.state (evA 0) false

/-- A suppressed `B↓` at the point where it would freshly activate the
combination. -/
def step2suppressed : NotifyResult := twoKeyHandler.notify step1.state (evB 1) true

/-- Handler for the one-key combination `{A}` with a sub-handler whose
`notify` always returns true. -/
def singleKeyHandler : CombinationHandler :=
  { combination := [cfgA], release_combination_keys := true,
    subNotify := fun _ _ => true }

/-- A small system layout: the letter `a` maps to code 30, keycode 30 is
occupied, nothing else is known. -/
def layoutSM : SystemMapping :=
  { mapping := [("a", 30)], allocated_unknowns := [], occupied_keycodes := [30] }

/-! ### Association-list lemmas -/

theorem alGet_alSet_self {α β : Type} [DecidableEq α] (l : List (α × β)) (k : α) (v : β) :
    alGet (alSet l k v) k = some v := by
  induction l with
  | nil => simp [alSet, alGet]
  | cons kv rest ih =>
    obtain ⟨k', v'⟩ := kv
    by_cases h : k' = k
    · simp [alSet, alGet, h]
    · simp [alSet, alGet, h, ih]

theorem alGet_alSet_ne {α β : Type} [DecidableEq α] (l : List (α × β)) (k k' : α) (v : β)
    (h : k' ≠ k) : alGet (alSet l k v) k' = alGet l k' := by
  have h' : k ≠ k' := Ne.symm h
  induction l with
  | nil => simp [alSet, alGet, h']
  | cons kv rest ih =>
    obtain ⟨k₁, v₁⟩ := kv
    by_cases h₁ : k₁ = k
    · subst h₁
      simp [alSet, alGet, h']
    · simp [alSet, alGet, h₁, ih]

theorem alGet_alRemove_ne {α β : Type} [DecidableEq α] (l : List (α × β)) (k k' : α)
    (h : k' ≠ k) : alGet (alRemove l k) k' = alGet l k' := by
  have h' : k ≠ k' := Ne.symm h
  induction l with
  | nil => simp [alRemove]
  | cons kv rest ih =>
    obtain ⟨k₁, v₁⟩ := kv
    by_cases h₁ : k₁ = k
    · subst h₁
      simp [alRemove, alGet, h']
    · simp [alRemove, alGet, h₁, ih]

theorem alGet_eq_none {α β : Type} [DecidableEq α] (l : List (α × β)) (k : α)
    (h : k ∉ l.map Prod.fst) : alGet l k = none := by
  induction l with
  | nil => simp [alGet]
  | cons kv rest ih =>
    obtain ⟨k₁, v₁⟩ := kv
    simp only [List.map_cons, List.mem_cons] at h
    push_neg at h
    have h1 : ¬k₁ = k := fun hh => h.1 hh.symm
    simp [alGet, h1, ih h.2]

theorem alGet_alRemove_self {α β : Type} [DecidableEq α] (l : List (α × β)) (k : α)
    (hnd : (l.map Prod.fst).Nodup) : alGet (alRemove l k) k = none := by
  induction l with
  | nil => simp [alRemove, alGet]
  | cons kv rest ih =>
    obtain ⟨k₁, v₁⟩ := kv
    simp only [List.map_cons, List.nodup_cons] at hnd
    by_cases h₁ : k₁ = k
    · subst h₁
      simp only [alRemove, if_pos rfl]
      exact alGet_eq_none rest k₁ hnd.1
    · simp [alRemove, alGet, h₁, ih hnd.2]

theorem mem_keys_alSet {α β : Type} [DecidableEq α] (l : List (α × β)) (k a : α) (v : β) :
    a ∈ (alSet l k v).map Prod.fst ↔ a ∈ l.map Prod.fst ∨ a = k := by
  induction l with
  | nil => simp [alSet]
  | cons kv rest ih =>
    obtain ⟨k₁, v₁⟩ := kv
    by_cases h₁ : k₁ = k
    · subst h₁
      have hrw : alSet ((k₁, v₁) :: rest) k₁ v = (k₁, v) :: rest := by
        simp [alSet]
      rw [hrw, List.map_cons, List.mem_cons, List.map_cons, List.mem_cons]
      tauto
    · simp only [alSet, if_neg h₁, List.map_cons, List.mem_cons, ih]
      tauto

theorem alSet_keys_nodup {α β : Type} [DecidableEq α] (l : List (α × β)) (k : α) (v : β)
    (hnd : (l.map Prod.fst).Nodup) : ((alSet l k v).map Prod.fst).Nodup := by
  induction l with
  | nil => simp [alSet]
  | cons kv rest ih =>
    obtain ⟨k₁, v₁⟩ := kv
    simp only [List.map_cons, List.nodup_cons] at hnd
    by_cases h₁ : k₁ = k
    · subst h₁
      have hrw : alSet ((k₁, v₁) :: rest) k₁ v = (k₁, v) :: rest := by
        simp [alSet]
      rw [hrw, List.map_cons, List.nodup_cons]
      exact ⟨hnd.1, hnd.2⟩
    · simp only [alSet, if_neg h₁, List.map_cons, List.nodup_cons]
      refine ⟨fun hmem => ?_, ih hnd.2⟩
      rcases (mem_keys_alSet rest k k₁ v).mp hmem with h | h
      · exact hnd.1 h
      · exact h₁ h

theorem alRemove_sublist {α β : Type} [DecidableEq α] (l : List (α × β)) (k : α) :
    List.Sublist (alRemove l k) l := by
  induction l with
  | nil => simp [alRemove]
  | cons kv rest ih =>
    obtain ⟨k₁, v₁⟩ := kv
    by_cases h₁ : k₁ = k
    · simp only [alRemove, if_pos h₁]
      exact List.sublist_cons_self (k₁, v₁) rest
    · simp only [alRemove, if_neg h₁]
      exact List.Sublist.cons₂ (k₁, v₁) ih

theorem alRemove_keys_nodup {α β : Type} [DecidableEq α] (l : List (α × β)) (k : α)
    (hnd : (l.map Prod.fst).Nodup) : ((alRemove l k).map Prod.fst).Nodup :=
  hnd.sublist (List.Sublist.map Prod.fst (alRemove_sublist l k))

theorem all_snd_alSet_false (l : List (Nat × Bool)) (k : Nat) :
    (alSet l k false).all (fun kv => kv.2) = false := by
  induction l with
  | nil => simp [alSet]
  | cons kv rest ih =>
    obtain ⟨k₁, b⟩ := kv
    by_cases h₁ : k₁ = k
    · simp [alSet, h₁]
    · simp [alSet, h₁, ih]

/-! ### Structural lemmas about the embedded handler -/

@[simp] theorem pressedUpdate_output (s : CombinationState) (e : InputEvent) :
    (pressedUpdate s e).output_previously_active = s.output_previously_active := rfl

@[simp] theorem pressedUpdate_requires (s : CombinationState) (e : InputEvent) :
    (pressedUpdate s e).requires_a_release = s.requires_a_release := rfl

theorem pressedUpdate_pressed (s : CombinationState) (e : InputEvent) :
    (pressedUpdate s e).pressed = alSet s.pressed e.input_match_hash (e.value == 1) := rfl

theorem notify_eq_nonmember (h : CombinationHandler) (s : CombinationState)
    (e : InputEvent) (sup : Bool)
    (hmem : e.input_match_hash ∉ h.handled_input_hashes) :
    h.notify s e sup = { result := false, state := s, effects := [] } := by
  simp [CombinationHandler.notify, hmem]

theorem notify_eq_freshly_activated (h : CombinationHandler) (s : CombinationState)
    (e : InputEvent) (sup : Bool)
    (hmem : e.input_match_hash ∈ h.handled_input_hashes)
    (hv : (e.value == 1) = true)
    (hch : (pressedUpdate s e).is_activated ≠ s.output_previously_active) :
    h.notify s e sup = h.handle_freshly_activated (pressedUpdate s e) e sup := by
  have hb : ((pressedUpdate s e).is_activated !=
      (pressedUpdate s e).output_previously_active) = true := by
    rw [pressedUpdate_output, bne_iff_ne]
    exact hch
  simp [CombinationHandler.notify, hmem, hb, hv]
  exact fun hcontra => absurd hcontra hch

theorem notify_eq_freshly_deactivated (h : CombinationHandler) (s : CombinationState)
    (e : InputEvent) (sup : Bool)
    (hmem : e.input_match_hash ∈ h.handled_input_hashes)
    (hv : (e.value == 1) = false)
    (hch : (pressedUpdate s e).is_activated ≠ s.output_previously_active) :
    h.notify s e sup = h.handle_freshly_deactivated (pressedUpdate s e) e := by
  have hb : ((pressedUpdate s e).is_activated !=
      (pressedUpdate s e).output_previously_active) = true := by
    rw [pressedUpdate_output, bne_iff_ne]
    exact hch
  simp [CombinationHandler.notify, hmem, hb, hv]
  exact fun hcontra => absurd hcontra hch

theorem notify_eq_no_change_press (h : CombinationHandler) (s : CombinationState)
    (e : InputEvent) (sup : Bool)
    (hmem : e.input_match_hash ∈ h.handled_input_hashes)
    (hv : (e.value == 1) = true)
    (hch : (pressedUpdate s e).is_activated = s.output_previously_active) :
    h.notify s e sup = handle_no_change_press (pressedUpdate s e) e := by
  have hb : ((pressedUpdate s e).is_activated !=
      (pressedUpdate s e).output_previously_active) = false := by
    rw [pressedUpdate_output]
    simp [hch]
  simp [CombinationHandler.notify, hmem, hb, hv]
  exact fun hcontra => absurd hch hcontra

theorem notify_eq_no_change_release (h : CombinationHandler) (s : CombinationState)
    (e : InputEvent) (sup : Bool)
    (hmem : e.input_match_hash ∈ h.handled_input_hashes)
    (hv : (e.value == 1) = false)
    (hch : (pressedUpdate s e).is_activated = s.output_previously_active) :
    h.notify s e sup = handle_no_change_release (pressedUpdate s e) e := by
  have hb : ((pressedUpdate s e).is_activated !=
      (pressedUpdate s e).output_previously_active) = false := by
    rw [pressedUpdate_output]
    simp [hch]
  simp [CombinationHandler.notify, hmem, hb, hv]
  exact fun hcontra => absurd hch hcontra

theorem countSubCalls_append (l₁ l₂ : List Effect) :
    countSubCalls (l₁ ++ l₂) = countSubCalls l₁ + countSubCalls l₂ := by
  simp [countSubCalls, List.filter_append]

theorem forwardReleaseLoop_no_subCall (pressed : List (Nat × Bool))
    (cfgs : List InputConfig) (req : List ((Nat × Nat) × Bool)) :
    countSubCalls (forwardReleaseLoop pressed cfgs req).2 = 0 := by
  induction cfgs generalizing req with
  | nil => simp [forwardReleaseLoop, countSubCalls]
  | cons cfg rest ih =>
    cases hp : (alGet pressed cfg.input_match_hash).getD false with
    | false => simpa [forwardReleaseLoop, hp] using ih req
    | true =>
      cases hr : (alGet req cfg.type_and_code).getD false with
      | false => simpa [forwardReleaseLoop, hp, hr] using ih req
      | true =>
        cases horigin : cfg.origin_hash with
        | none => simpa [forwardReleaseLoop, hp, hr, horigin] using ih req
        | some origin =>
          have := ih (alRemove req cfg.type_and_code)
          simpa [forwardReleaseLoop, hp, hr, horigin, countSubCalls] using this

theorem forwardReleaseLoop_keys_nodup (pressed : List (Nat × Bool))
    (cfgs : List InputConfig) (req : List ((Nat × Nat) × Bool))
    (hnd : (req.map Prod.fst).Nodup) :
    (((forwardReleaseLoop pressed cfgs req).1).map Prod.fst).Nodup := by
  induction cfgs generalizing req with
  | nil => simpa [forwardReleaseLoop] using hnd
  | cons cfg rest ih =>
    cases hp : (alGet pressed cfg.input_match_hash).getD false with
    | false => simpa [forwardReleaseLoop, hp] using ih req hnd
    | true =>
      cases hr : (alGet req cfg.type_and_code).getD false with
      | false => simpa [forwardReleaseLoop, hp, hr] using ih req hnd
      | true =>
        cases horigin : cfg.origin_hash with
        | none => simpa [forwardReleaseLoop, hp, hr, horigin] using ih req hnd
        | some origin =>
          have := ih (alRemove req cfg.type_and_code)
            (alRemove_keys_nodup req cfg.type_and_code hnd)
          simpa [forwardReleaseLoop, hp, hr, horigin] using this

theorem forwardReleaseLoop_false_entry (pressed : List (Nat × Bool))
    (cfgs : List InputConfig) (req : List ((Nat × Nat) × Bool)) (tc : Nat × Nat)
    (h : alGet req tc = some false) :
    alGet (forwardReleaseLoop pressed cfgs req).1 tc = some false ∧
      ∀ o v, Effect.write o tc.1 tc.2 v ∉ (forwardReleaseLoop pressed cfgs req).2 := by
  induction cfgs generalizing req with
  | nil => simp [forwardReleaseLoop, h]
  | cons cfg rest ih =>
    cases hp : (alGet pressed cfg.input_match_hash).getD false with
    | false => simpa [forwardReleaseLoop, hp] using ih req h
    | true =>
      cases hr : (alGet req cfg.type_and_code).getD false with
      | false => simpa [forwardReleaseLoop, hp, hr] using ih req h
      | true =>
        have hne : tc ≠ cfg.type_and_code := by
          intro he
          rw [← he, h] at hr
          simp at hr
        cases horigin : cfg.origin_hash with
        | none => simpa [forwardReleaseLoop, hp, hr, horigin] using ih req h
        | some origin =>
          have h' : alGet (alRemove req cfg.type_and_code) tc = some false := by
            rw [alGet_alRemove_ne _ _ _ hne]
            exact h
          obtain ⟨ih1, ih2⟩ := ih (alRemove req cfg.type_and_code) h'
          refine ⟨by simpa [forwardReleaseLoop, hp, hr, horigin] using ih1, ?_⟩
          intro o v hmemw
          simp only [forwardReleaseLoop, hp, hr, horigin, if_true, List.mem_cons] at hmemw
          rcases hmemw with hw | hw | hw
          · obtain ⟨t₀, c₀⟩ := tc
            cases hw
            exact hne rfl
          · cases hw
          · exact ih2 o v hw

theorem forward_release_requires_nodup (h : CombinationHandler) (s : CombinationState)
    (hnd : (s.requires_a_release.map Prod.fst).Nodup) :
    (((h.forward_release s).1.requires_a_release).map Prod.fst).Nodup := by
  by_cases hc : s.pressed.length = 1 ∨ h.release_combination_keys = false
  · simpa [CombinationHandler.forward_release, hc] using hnd
  · simpa [CombinationHandler.forward_release, hc] using
      forwardReleaseLoop_keys_nodup s.pressed h.combination s.requires_a_release hnd

theorem forward_release_false_entry (h : CombinationHandler) (s : CombinationState)
    (tc : Nat × Nat) (hent : alGet s.requires_a_release tc = some false) :
    alGet (h.forward_release s).1.requires_a_release tc = some false ∧
      ∀ o v, Effect.write o tc.1 tc.2 v ∉ (h.forward_release s).2 := by
  by_cases hc : s.pressed.length = 1 ∨ h.release_combination_keys = false
  · simpa [CombinationHandler.forward_release, hc] using hent
  · simpa [CombinationHandler.forward_release, hc] using
      forwardReleaseLoop_false_entry s.pressed h.combination s.requires_a_release tc hent

theorem notify_requires_nodup (h : CombinationHandler) (s : CombinationState)
    (e : InputEvent) (sup : Bool)
    (hnd : (s.requires_a_release.map Prod.fst).Nodup) :
    (((h.notify s e sup).state.requires_a_release).map Prod.fst).Nodup := by
  by_cases hmem : e.input_match_hash ∈ h.handled_input_hashes
  · cases hv : (e.value == 1) with
    | true =>
      by_cases hch : (pressedUpdate s e).is_activated = s.output_previously_active
      · rw [notify_eq_no_change_press h s e sup hmem hv hch]
        simpa [handle_no_change_press] using
          alSet_keys_nodup s.requires_a_release e.type_and_code _ hnd
      · rw [notify_eq_freshly_activated h s e sup hmem hv hch]
        by_cases hsup : sup = true
        · simpa [CombinationHandler.handle_freshly_activated, hsup] using hnd
        · have hfr := forward_release_requires_nodup h (pressedUpdate s e) (by simpa using hnd)
          simp only [CombinationHandler.handle_freshly_activated, if_neg hsup]
          exact alSet_keys_nodup _ _ _ hfr
    | false =>
      by_cases hch : (pressedUpdate s e).is_activated = s.output_previously_active
      · rw [notify_eq_no_change_release h s e sup hmem hv hch]
        simpa [handle_no_change_release, should_release_event] using
          alRemove_keys_nodup s.requires_a_release e.type_and_code hnd
      · rw [notify_eq_freshly_deactivated h s e sup hmem hv hch]
        simpa [CombinationHandler.handle_freshly_deactivated, should_release_event] using
          alRemove_keys_nodup s.requires_a_release e.type_and_code hnd
  · simpa [notify_eq_nonmember h s e sup hmem] using hnd

theorem notify_false_entry (h : CombinationHandler) (s : CombinationState)
    (e : InputEvent) (sup : Bool) (tc : Nat × Nat)
    (hne : e.type_and_code ≠ tc)
    (hent : alGet s.requires_a_release tc = some false) :
    alGet (h.notify s e sup).state.requires_a_release tc = some false ∧
      ∀ o v, Effect.write o tc.1 tc.2 v ∉ (h.notify s e sup).effects := by
  have hne' : tc ≠ e.type_and_code := Ne.symm hne
  by_cases hmem : e.input_match_hash ∈ h.handled_input_hashes
  · cases hv : (e.value == 1) with
    | true =>
      by_cases hch : (pressedUpdate s e).is_activated = s.output_previously_active
      · rw [notify_eq_no_change_press h s e sup hmem hv hch]
        constructor
        · simp only [handle_no_change_press]
          rw [alGet_alSet_ne _ _ _ _ hne']
          simpa using hent
        · simp [handle_no_change_press]
      · rw [notify_eq_freshly_activated h s e sup hmem hv hch]
        by_cases hsup : sup = true
        · simpa [CombinationHandler.handle_freshly_activated, hsup] using hent
        · obtain ⟨hfr1, hfr2⟩ := forward_release_false_entry h (pressedUpdate s e) tc
            (by simpa using hent)
          simp only [CombinationHandler.handle_freshly_activated, if_neg hsup]
          constructor
          · rw [alGet_alSet_ne _ _ _ _ hne']
            simpa using hfr1
          · intro o v hw
            rcases List.mem_append.mp hw with hw | hw
            · exact hfr2 o v hw
            · simp at hw
    | false =>
      by_cases hch : (pressedUpdate s e).is_activated = s.output_previously_active
      · rw [notify_eq_no_change_release h s e sup hmem hv hch]
        constructor
        · simp only [handle_no_change_release, should_release_event]
          rw [alGet_alRemove_ne _ _ _ hne']
          simpa using hent
        · simp [handle_no_change_release, should_release_event]
      · rw [notify_eq_freshly_deactivated h s e sup hmem hv hch]
        constructor
        · simp only [CombinationHandler.handle_freshly_deactivated, should_release_event]
          rw [alGet_alRemove_ne _ _ _ hne']
          simpa using hent
        · simp [CombinationHandler.handle_freshly_deactivated, should_release_event]
  · rw [notify_eq_nonmember h s e sup hmem]
    exact ⟨hent, by simp⟩

theorem notifyTrace_requires_nodup (h : CombinationHandler)
    (tr : List (InputEvent × Bool)) :
    ∀ s : CombinationState, (s.requires_a_release.map Prod.fst).Nodup →
      (((h.notifyTrace s tr).1.requires_a_release).map Prod.fst).Nodup := by
  induction tr with
  | nil => intro s hnd; simpa [CombinationHandler.notifyTrace] using hnd
  | cons p rest ih =>
    intro s hnd
    simp only [CombinationHandler.notifyTrace]
    exact ih _ (notify_requires_nodup h s p.1 p.2 hnd)

theorem notifyTrace_false_entry (h : CombinationHandler)
    (tr : List (InputEvent × Bool)) (tc : Nat × Nat) :
    ∀ s : CombinationState, (∀ p ∈ tr, p.1.type_and_code ≠ tc) →
      alGet s.requires_a_release tc = some false →
      alGet (h.notifyTrace s tr).1.requires_a_release tc = some false ∧
        ∀ o v, Effect.write o tc.1 tc.2 v ∉ (h.notifyTrace s tr).2 := by
  induction tr with
  | nil =>
    intro s _ hent
    exact ⟨by simpa [CombinationHandler.notifyTrace] using hent,
      by simp [CombinationHandler.notifyTrace]⟩
  | cons p rest ih =>
    intro s htr hent
    obtain ⟨h1, h2⟩ := notify_false_entry h s p.1 p.2 tc (htr p (by simp)) hent
    obtain ⟨ih1, ih2⟩ := ih (h.notify s p.1 p.2).state
      (fun q hq => htr q (by simp [hq])) h1
    refine ⟨by simpa [CombinationHandler.notifyTrace] using ih1, ?_⟩
    intro o v hw
    simp only [CombinationHandler.notifyTrace, List.mem_append] at hw
    rcases hw with hw | hw
    · exact h2 o v hw
    · exact ih2 o v hw

theorem notify_absorbed_press (h : CombinationHandler) (s : CombinationState)
    (e : InputEvent) (sup : Bool)
    (hmem : e.input_match_hash ∈ h.handled_input_hashes)
    (hv : e.value = 1)
    (habs : (h.notify s e sup).result = true) :
    alGet (h.notify s e sup).state.requires_a_release e.type_and_code = some false := by
  have hv' : (e.value == 1) = true := by simp [hv]
  by_cases hch : (pressedUpdate s e).is_activated = s.output_previously_active
  · rw [notify_eq_no_change_press h s e sup hmem hv' hch] at habs ⊢
    simp only [handle_no_change_press] at habs ⊢
    rw [habs]
    simpa using alGet_alSet_self s.requires_a_release e.type_and_code false
  · rw [notify_eq_freshly_activated h s e sup hmem hv' hch] at habs ⊢
    by_cases hsup : sup = true
    · simp [CombinationHandler.handle_freshly_activated, hsup] at habs
    · simp only [CombinationHandler.handle_freshly_activated, if_neg hsup] at habs ⊢
      rw [habs]
      simpa using alGet_alSet_self _ e.type_and_code false

theorem notify_release_absorbs (h : CombinationHandler) (s : CombinationState)
    (rel : InputEvent) (sup : Bool)
    (hmem : rel.input_match_hash ∈ h.handled_input_hashes)
    (hv : rel.value = 0)
    (hent : alGet s.requires_a_release rel.type_and_code = some false)
    (hnd : (s.requires_a_release.map Prod.fst).Nodup) :
    (h.notify s rel sup).result = true ∧
      alGet (h.notify s rel sup).state.requires_a_release rel.type_and_code = none ∧
      ∀ o v, Effect.write o rel.type rel.code v ∉ (h.notify s rel sup).effects := by
  have hv' : (rel.value == 1) = false := by simp [hv]
  have hrm : alGet (alRemove s.requires_a_release rel.type_and_code) rel.type_and_code
      = none := alGet_alRemove_self s.requires_a_release rel.type_and_code hnd
  by_cases hch : (pressedUpdate s rel).is_activated = s.output_previously_active
  · rw [notify_eq_no_change_release h s rel sup hmem hv' hch]
    refine ⟨?_, ?_, ?_⟩
    · simp [handle_no_change_release, should_release_event, hent]
    · simpa [handle_no_change_release, should_release_event] using hrm
    · simp [handle_no_change_release, should_release_event]
  · rw [notify_eq_freshly_deactivated h s rel sup hmem hv' hch]
    refine ⟨?_, ?_, ?_⟩
    · simp [CombinationHandler.handle_freshly_deactivated, should_release_event, hent]
    · simpa [CombinationHandler.handle_freshly_deactivated, should_release_event] using hrm
    · simp [CombinationHandler.handle_freshly_deactivated, should_release_event]

/-! ### Claim theorems -/

/-- C10: a `notify` call with an event whose `input_match_hash` is not
among the combination's handled hashes returns false, calls no sub-handler,
writes nothing, and leaves the whole state unchanged. -/
theorem nonmember_events_inert (h : CombinationHandler) (s : CombinationState)
    (e : InputEvent) (sup : Bool)
    (hmem : e.input_match_hash ∉ h.handled_input_hashes) :
    (h.notify s e sup).result = false ∧ (h.notify s e sup).state = s ∧
      (h.notify s e sup).effects = [] := by
  rw [notify_eq_nonmember h s e sup hmem]
  exact ⟨rfl, rfl, rfl⟩

/-- Witness for C10 at a concrete non-member event. -/
theorem nonmember_events_inert_witness :
    (999 ∉ twoKeyHandler.handled_input_hashes) ∧
      ((twoKeyHandler.notify twoKeyHandler.initState
          { type := 1, code := 2, value := 1, input_match_hash := 999 } false).result = false ∧
        (twoKeyHandler.notify twoKeyHandler.initState
          { type := 1, code := 2, value := 1, input_match_hash := 999 } false).state
            = twoKeyHandler.initState ∧
        (twoKeyHandler.notify twoKeyHandler.initState
          { type := 1, code := 2, value := 1, input_match_hash := 999 } false).effects = []) :=
  ⟨by decide,
   nonmember_events_inert twoKeyHandler twoKeyHandler.initState
     { type := 1, code := 2, value := 1, input_match_hash := 999 } false (by decide)⟩

/-- C4: a suppressed fresh activation (value 1, all keys pressed after the
update, output previously inactive) returns false, performs no side
effects, and only the pressed map entry is updated. -/
theorem suppressed_fresh_activation (h : CombinationHandler) (s : CombinationState)
    (e : InputEvent)
    (hmem : e.input_match_hash ∈ h.handled_input_hashes)
    (hv : e.value = 1)
    (hall : (pressedUpdate s e).is_activated = true)
    (hout : s.output_previously_active = false) :
    (h.notify s e true).result = false ∧ (h.notify s e true).effects = [] ∧
      (h.notify s e true).state = pressedUpdate s e := by
  have hv' : (e.value == 1) = true := by simp [hv]
  have hch : (pressedUpdate s e).is_activated ≠ s.output_previously_active := by
    rw [hall, hout]
    simp
  rw [notify_eq_freshly_activated h s e true hmem hv' hch]
  simp [CombinationHandler.handle_freshly_activated]

/-- Witness for C4: the suppressed `B↓` of the two-key scenario. -/
theorem suppressed_fresh_activation_witness :
    (twoKeyHandler.notify step1.state (evB 1) true).result = false ∧
      (twoKeyHandler.notify step1.state (evB 1) true).effects = [] ∧
      (twoKeyHandler.notify step1.state (evB 1) true).state
        = pressedUpdate step1.state (evB 1) :=
  suppressed_fresh_activation twoKeyHandler step1.state (evB 1)
    (by decide) (by decide) (by decide) (by decide)

/-- C3: a fresh deactivation (member event of value 0 while the output was
active) calls the sub-handler exactly once with suppress=false regardless
of the caller's suppress argument, clears `output_previously_active`, and
returns the negation of the removed `requires_a_release` entry (an absent
entry counting as false). -/
theorem fresh_deactivation_contract (h : CombinationHandler) (s : CombinationState)
    (e : InputEvent) (sup : Bool)
    (hmem : e.input_match_hash ∈ h.handled_input_hashes)
    (hv : e.value = 0)
    (hout : s.output_previously_active = true) :
    (h.notify s e sup).effects = [Effect.subCall e false] ∧
      (h.notify s e sup).state.output_previously_active = false ∧
      (h.notify s e sup).result
        = !((alGet s.requires_a_release e.type_and_code).getD false) ∧
      (h.notify s e sup).state.requires_a_release
        = alRemove s.requires_a_release e.type_and_code := by
  have hv' : (e.value == 1) = false := by simp [hv]
  have hact : (pressedUpdate s e).is_activated = false := by
    have : (pressedUpdate s e).pressed = alSet s.pressed e.input_match_hash false := by
      rw [pressedUpdate_pressed, hv']
    simp only [CombinationState.is_activated, this]
    exact all_snd_alSet_false s.pressed e.input_match_hash
  have hch : (pressedUpdate s e).is_activated ≠ s.output_previously_active := by
    rw [hact, hout]
    simp
  rw [notify_eq_freshly_deactivated h s e sup hmem hv' hch]
  simp [CombinationHandler.handle_freshly_deactivated, should_release_event, hv]

/-- Witness for C3: the `B↑` of the two-key scenario, with a suppress hint
that must be ignored. -/
theorem fresh_deactivation_contract_witness :
    (twoKeyHandler.notify step2.state (evB 0) true).effects
        = [Effect.subCall (evB 0) false] ∧
      (twoKeyHandler.notify step2.state (evB 0) true).state.output_previously_active
        = false ∧
      (twoKeyHandler.notify step2.state (evB 0) true).result
        = !((alGet step2.state.requires_a_release (evB 0).type_and_code).getD false) ∧
      (twoKeyHandler.notify step2.state (evB 0) true).state.requires_a_release
        = alRemove step2.state.requires_a_release (evB 0).type_and_code :=
  fresh_deactivation_contract twoKeyHandler step2.state (evB 0) true
    (by decide) (by decide) (by decide)

/-- C5: no-change cases.  For a member event that does not change the
activation state: on value 1 the `requires_a_release` entry for the event's
`(type, code)` is set to the negation of `output_previously_active` and
`notify` returns `output_previously_active`; on value 0 `notify` returns
the negation of the removed `requires_a_release` entry, returning true when
no entry exists. -/
theorem no_change_contract (h : CombinationHandler) (s : CombinationState)
    (e : InputEvent) (sup : Bool)
    (hmem : e.input_match_hash ∈ h.handled_input_hashes) :
    (e.value = 1 → (pressedUpdate s e).is_activated = s.output_previously_active →
      (h.notify s e sup).result = s.output_previously_active ∧
        (h.notify s e sup).effects = [] ∧
        (h.notify s e sup).state.requires_a_release
          = alSet s.requires_a_release e.type_and_code (!s.output_previously_active))
    ∧ (e.value = 0 → s.output_previously_active = false →
      (h.notify s e sup).result
          = !((alGet s.requires_a_release e.type_and_code).getD false) ∧
        (h.notify s e sup).effects = [] ∧
        (h.notify s e sup).state.requires_a_release
          = alRemove s.requires_a_release e.type_and_code ∧
        (alGet s.requires_a_release e.type_and_code = none →
          (h.notify s e sup).result = true)) := by
  constructor
  · intro hv hch
    have hv' : (e.value == 1) = true := by simp [hv]
    rw [notify_eq_no_change_press h s e sup hmem hv' hch]
    simp [handle_no_change_press]
  · intro hv hout
    have hv' : (e.value == 1) = false := by simp [hv]
    have hact : (pressedUpdate s e).is_activated = false := by
      have hpr : (pressedUpdate s e).pressed = alSet s.pressed e.input_match_hash false := by
        rw [pressedUpdate_pressed, hv']
      simp only [CombinationState.is_activated, hpr]
      exact all_snd_alSet_false s.pressed e.input_match_hash
    have hch : (pressedUpdate s e).is_activated = s.output_previously_active := by
      rw [hact, hout]
    rw [notify_eq_no_change_release h s e sup hmem hv' hch]
    refine ⟨by simp [handle_no_change_release, should_release_event],
      by simp [handle_no_change_release],
      by simp [handle_no_change_release, should_release_event], ?_⟩
    intro hnone
    simp [handle_no_change_release, should_release_event, hnone]

/-- Witness for C5: the `A↓` of the two-key scenario (a hold press that
does not yet activate the combination). -/
theorem no_change_contract_witness :
    ((evA 1).value = 1 →
      (pressedUpdate twoKeyHandler.initState (evA 1)).is_activated
        = twoKeyHandler.initState.output_previously_active →
      (twoKeyHandler.notify twoKeyHandler.initState (evA 1) false).result
          = twoKeyHandler.initState.output_previously_active ∧
        (twoKeyHandler.notify twoKeyHandler.initState (evA 1) false).effects = [] ∧
        (twoKeyHandler.notify twoKeyHandler.initState (evA 1) false).state.requires_a_release
          = alSet twoKeyHandler.initState.requires_a_release (evA 1).type_and_code
              (!twoKeyHandler.initState.output_previously_active))
    ∧ ((evA 1).value = 0 → twoKeyHandler.initState.output_previously_active = false →
      (twoKeyHandler.notify twoKeyHandler.initState (evA 1) false).result
          = !((alGet twoKeyHandler.initState.requires_a_release
                (evA 1).type_and_code).getD false) ∧
        (twoKeyHandler.notify twoKeyHandler.initState (evA 1) false).effects = [] ∧
        (twoKeyHandler.notify twoKeyHandler.initState (evA 1) false).state.requires_a_release
          = alRemove twoKeyHandler.initState.requires_a_release (evA 1).type_and_code ∧
        (alGet twoKeyHandler.initState.requires_a_release (evA 1).type_and_code = none →
          (twoKeyHandler.notify twoKeyHandler.initState (evA 1) false).result = true)) :=
  no_change_contract twoKeyHandler twoKeyHandler.initState (evA 1) false (by decide)

/-- C8: after `reset()` the pressed map keeps its key set with every value
false, `requires_a_release` is empty and `output_previously_active` is
false; applying `reset` twice equals applying it once. -/
theorem reset_contract : ∀ s : CombinationState,
    (CombinationHandler.reset s).pressed.map Prod.fst = s.pressed.map Prod.fst ∧
      (∀ kv ∈ (CombinationHandler.reset s).pressed, kv.2 = false) ∧
      (CombinationHandler.reset s).requires_a_release = [] ∧
      (CombinationHandler.reset s).output_previously_active = false ∧
      CombinationHandler.reset (CombinationHandler.reset s) = CombinationHandler.reset s := by
  intro s
  refine ⟨?_, ?_, rfl, rfl, ?_⟩
  · show List.map Prod.fst (List.map (fun kv => (kv.1, false)) s.pressed)
        = List.map Prod.fst s.pressed
    rw [List.map_map]
    rfl
  · intro kv hkv
    simp only [CombinationHandler.reset, List.mem_map] at hkv
    obtain ⟨x, _, hx⟩ := hkv
    rw [← hx]
  · simp only [CombinationHandler.reset, List.map_map]
    rfl

/-- Witness for C8 at the state reached after the two-key activation. -/
theorem reset_contract_witness :
    (CombinationHandler.reset step2.state).pressed.map Prod.fst
        = step2.state.pressed.map Prod.fst ∧
      (∀ kv ∈ (CombinationHandler.reset step2.state).pressed, kv.2 = false) ∧
      (CombinationHandler.reset step2.state).requires_a_release = [] ∧
      (CombinationHandler.reset step2.state).output_previously_active = false ∧
      CombinationHandler.reset (CombinationHandler.reset step2.state)
        = CombinationHandler.reset step2.state :=
  reset_contract step2.state

/-- C2: the literal two-key scenario.  `A↓` is forwarded; `B↓` emits one
release for A (write then syn on A's origin forwarder) and reaches the
sub-handler; `B↑` reaches the sub-handler and is absorbed; `A↑` is
absorbed; the sub-handler is called exactly on `B↓` and `B↑`. -/
theorem two_key_scenario :
    step1.result = false ∧ step2.result = true ∧ step3.result = true ∧
      step4.result = true ∧
      step1.effects = [] ∧
      step2.effects
        = [Effect.write 10 1 30 0, Effect.syn 10, Effect.subCall (evB 1) false] ∧
      step3.effects = [Effect.subCall (evB 0) false] ∧
      step4.effects = [] := by
  decide

/-- C9: `get_or_allocate` resolves a known layout name, but hands out the
same free code for two distinct unknown characters, overwriting the first
allocation: with only keycode 30 occupied, `zz` is allocated code 0 and a
later `qq` is also allocated code 0, erasing the record for `zz`. -/
theorem get_or_allocate_code_reuse :
    layoutSM.get_or_allocate "a" = some (30, layoutSM) ∧
      layoutSM.get_or_allocate "zz"
        = some (0, { layoutSM with allocated_unknowns := [(0, "zz")] }) ∧
      ({ layoutSM with allocated_unknowns := [(0, "zz")] } : SystemMapping).get_or_allocate "qq"
        = some (0, { layoutSM with allocated_unknowns := [(0, "qq")] }) := by
  decide

theorem releaseSweepClaimLoop_eq (pressed : List (Nat × Bool))
    (cfgs : List InputConfig) (req : List ((Nat × Nat) × Bool)) :
    releaseSweepClaimLoop pressed cfgs req = forwardReleaseLoop pressed cfgs req := by
  induction cfgs generalizing req with
  | nil => rfl
  | cons cfg rest ih =>
    rcases hg : alGet pressed cfg.input_match_hash with _ | b
    · simp [releaseSweepClaimLoop, forwardReleaseLoop, hg, ih]
    · cases b
      · simp [releaseSweepClaimLoop, forwardReleaseLoop, hg, ih]
      · rcases hr : alGet req cfg.type_and_code with _ | c
        · simp [releaseSweepClaimLoop, forwardReleaseLoop, hg, hr, ih]
        · cases c
          · simp [releaseSweepClaimLoop, forwardReleaseLoop, hg, hr, ih]
          · rcases horigin : cfg.origin_hash with _ | origin
            · simp [releaseSweepClaimLoop, forwardReleaseLoop, hg, hr, horigin, ih]
            · simp [releaseSweepClaimLoop, forwardReleaseLoop, hg, hr, horigin, ih]

/-- C6: the release sweep of `_forward_release` behaves exactly as the
spec describes it: it is a no-op when the combination has exactly one key
or `release_combination_keys` is not set; otherwise it visits the
combination in order, and for every config whose pressed entry is true and
whose `requires_a_release` entry is true it emits `(type, code, 0)` plus
`syn()` to the forwarder of the config's origin and removes the entry,
skipping configs without an `origin_hash` (entry kept). -/
theorem release_sweep_matches_claim (h : CombinationHandler) (s : CombinationState)
    (hkeys : s.pressed.map Prod.fst
      = h.combination.map (fun c => c.input_match_hash)) :
    h.forward_release s = releaseSweepClaim h s := by
  have hlen : s.pressed.length = h.combination.length := by
    have hl := congrArg List.length hkeys
    simpa using hl
  unfold CombinationHandler.forward_release releaseSweepClaim
  rw [hlen, releaseSweepClaimLoop_eq]

/-- Witness for C6 at the state reached after `A↓` in the two-key
scenario. -/
theorem release_sweep_matches_claim_witness :
    twoKeyHandler.forward_release step1.state
      = releaseSweepClaim twoKeyHandler step1.state :=
  release_sweep_matches_claim twoKeyHandler step1.state (by decide)

theorem forward_release_no_subCall (h : CombinationHandler) (s : CombinationState) :
    countSubCalls (h.forward_release s).2 = 0 := by
  by_cases hc : s.pressed.length = 1 ∨ h.release_combination_keys = false
  · simp [CombinationHandler.forward_release, hc, countSubCalls]
  · simpa [CombinationHandler.forward_release, hc] using
      forwardReleaseLoop_no_subCall s.pressed h.combination s.requires_a_release

/-- C7 counterexample: in the two-key scenario, the suppressed `B↓` after
`A↓` is an activation transition in the claim's sense (the all-pressed
status computed after the update differs from `output_previously_active`),
yet the sub-handler is called zero times, not exactly once, during that
call. -/
theorem activation_monotonicity_counterexample :
    (pressedUpdate step1.state (evB 1)).is_activated = true ∧
      step1.state.output_previously_active = false ∧
      countSubCalls step2suppressed.effects = 0 ∧
      step2suppressed.state.output_previously_active = false := by
  decide

/-- C7 amended: `output_previously_active` changes only during member calls
whose computed all-pressed status differs from it, and the sub-handler is
called exactly once during a member call with such a differing status
unless that call is a suppressed press, and zero times otherwise. -/
theorem activation_monotonicity_amended (h : CombinationHandler)
    (s : CombinationState) (e : InputEvent) (sup : Bool) :
    ((h.notify s e sup).state.output_previously_active ≠ s.output_previously_active →
      e.input_match_hash ∈ h.handled_input_hashes ∧
        (pressedUpdate s e).is_activated ≠ s.output_previously_active) ∧
      countSubCalls (h.notify s e sup).effects =
        (if e.input_match_hash ∈ h.handled_input_hashes
            ∧ (pressedUpdate s e).is_activated ≠ s.output_previously_active
            ∧ ¬(sup = true ∧ e.value = 1)
          then 1 else 0) := by
  by_cases hmem : e.input_match_hash ∈ h.handled_input_hashes
  · cases hv : (e.value == 1) with
    | true =>
      have hv1 : e.value = 1 := by simpa using hv
      by_cases hch : (pressedUpdate s e).is_activated = s.output_previously_active
      · rw [notify_eq_no_change_press h s e sup hmem hv hch]
        constructor
        · intro hcontra
          exact absurd rfl hcontra
        · rw [if_neg fun hc => hc.2.1 hch]
          simp [handle_no_change_press, countSubCalls]
      · rw [notify_eq_freshly_activated h s e sup hmem hv hch]
        by_cases hsup : sup = true
        · constructor
          · intro hcontra
            simp [CombinationHandler.handle_freshly_activated, hsup] at hcontra
          · rw [if_neg fun hc => hc.2.2 ⟨hsup, hv1⟩]
            simp [CombinationHandler.handle_freshly_activated, hsup, countSubCalls]
        · constructor
          · intro _
            exact ⟨hmem, hch⟩
          · rw [if_pos ⟨hmem, hch, fun hc => hsup hc.1⟩]
            simp only [CombinationHandler.handle_freshly_activated, if_neg hsup,
              countSubCalls_append]
            rw [forward_release_no_subCall]
            simp [countSubCalls]
    | false =>
      have hv1 : ¬(e.value = 1) := by simpa using hv
      by_cases hch : (pressedUpdate s e).is_activated = s.output_previously_active
      · rw [notify_eq_no_change_release h s e sup hmem hv hch]
        constructor
        · intro hcontra
          exact absurd rfl hcontra
        · rw [if_neg fun hc => hc.2.1 hch]
          simp [handle_no_change_release, should_release_event, countSubCalls]
      · rw [notify_eq_freshly_deactivated h s e sup hmem hv hch]
        constructor
        · intro _
          exact ⟨hmem, hch⟩
        · rw [if_pos ⟨hmem, hch, fun hc => hv1 hc.2⟩]
          simp [CombinationHandler.handle_freshly_deactivated, should_release_event,
            countSubCalls]
  · rw [notify_eq_nonmember h s e sup hmem]
    constructor
    · intro hcontra
      exact absurd rfl hcontra
    · rw [if_neg fun hc => hmem hc.1]
      simp [countSubCalls]

/-- Witness for C7 at the non-suppressed `B↓` of the two-key scenario. -/
theorem activation_monotonicity_amended_witness :
    ((twoKeyHandler.notify step1.state (evB 1) false).state.output_previously_active
        ≠ step1.state.output_previously_active →
      (evB 1).input_match_hash ∈ twoKeyHandler.handled_input_hashes ∧
        (pressedUpdate step1.state (evB 1)).is_activated
          ≠ step1.state.output_previously_active) ∧
      countSubCalls (twoKeyHandler.notify step1.state (evB 1) false).effects =
        (if (evB 1).input_match_hash ∈ twoKeyHandler.handled_input_hashes
            ∧ (pressedUpdate step1.state (evB 1)).is_activated
                ≠ step1.state.output_previously_active
            ∧ ¬(false = true ∧ (evB 1).value = 1)
          then 1 else 0) :=
  activation_monotonicity_amended twoKeyHandler step1.state (evB 1) false

/-- C1 counterexample: after the forwarded (not absorbed) `A↓` of the
two-key scenario — the only call so far, and it returned false — the
`requires_a_release` entry for `(1, 30)` is true.  This refutes the
claimed equivalence that the entry is true exactly when a suppressed
(absorbed) press has not yet had its release emitted or absorbed: the
entry's truth marks a forwarded press, not a suppressed one. -/
theorem release_balance_counterexample :
    step1.result = false ∧
      alGet step1.state.requires_a_release (1, 30) = some true := by
  decide

/-- C1 amended: for every press a `CombinationHandler` absorbs (returns
true on a member event of value 1), the `requires_a_release` entry for the
press's `(type, code)` is false; it stays false and no release of that
`(type, code)` is written to any forwarder while events of other
`(type, code)` are processed; and when the matching release (same key,
value 0) arrives it is absorbed (notify returns true) with the entry
removed and nothing written — so exactly one release is absorbed and none
is emitted, never both and never neither.  (The entry's value is true
exactly for forwarded, not suppressed, presses.) -/
theorem release_balance_amended (h : CombinationHandler) (s : CombinationState)
    (e rel : InputEvent) (sup relSup : Bool) (tr : List (InputEvent × Bool))
    (hnd : (s.requires_a_release.map Prod.fst).Nodup)
    (hmem : e.input_match_hash ∈ h.handled_input_hashes)
    (hv : e.value = 1)
    (habs : (h.notify s e sup).result = true)
    (htr : ∀ p ∈ tr, p.1.type_and_code ≠ e.type_and_code)
    (hrt : rel.type = e.type) (hrc : rel.code = e.code)
    (hrh : rel.input_match_hash = e.input_match_hash) (hrv : rel.value = 0) :
    alGet (h.notify s e sup).state.requires_a_release e.type_and_code = some false ∧
      alGet (h.notifyTrace (h.notify s e sup).state tr).1.requires_a_release
          e.type_and_code = some false ∧
      (∀ o v, Effect.write o e.type e.code v
        ∉ (h.notifyTrace (h.notify s e sup).state tr).2) ∧
      (h.notify (h.notifyTrace (h.notify s e sup).state tr).1 rel relSup).result
        = true ∧
      alGet (h.notify (h.notifyTrace (h.notify s e sup).state tr).1 rel
          relSup).state.requires_a_release e.type_and_code = none ∧
      (∀ o v, Effect.write o e.type e.code v
        ∉ (h.notify (h.notifyTrace (h.notify s e sup).state tr).1 rel relSup).effects) := by
  have h1 := notify_absorbed_press h s e sup hmem hv habs
  have hnd1 := notify_requires_nodup h s e sup hnd
  obtain ⟨h2, h3⟩ :=
    notifyTrace_false_entry h tr e.type_and_code (h.notify s e sup).state htr h1
  have hnd2 := notifyTrace_requires_nodup h tr (h.notify s e sup).state hnd1
  have hmem' : rel.input_match_hash ∈ h.handled_input_hashes := by
    rw [hrh]
    exact hmem
  have htc : rel.type_and_code = e.type_and_code := by
    simp [InputEvent.type_and_code, hrt, hrc]
  obtain ⟨h4, h5, h6⟩ :=
    notify_release_absorbs h (h.notifyTrace (h.notify s e sup).state tr).1 rel relSup
      hmem' hrv (by rw [htc]; exact h2) hnd2
  rw [hrt, hrc] at h6
  rw [htc] at h5
  exact ⟨h1, h2, fun o v => h3 o v, h4, h5, h6⟩

/-- Witness for C1: the single-key combination `{A}`; `A↓` is absorbed and
the following `A↑` is absorbed exactly once, with nothing written. -/
theorem release_balance_amended_witness :
    alGet (singleKeyHandler.notify singleKeyHandler.initState (evA 1)
        false).state.requires_a_release (evA 1).type_and_code = some false ∧
      alGet (singleKeyHandler.notifyTrace
          (singleKeyHandler.notify singleKeyHandler.initState (evA 1) false).state
          []).1.requires_a_release (evA 1).type_and_code = some false ∧
      (∀ o v, Effect.write o (evA 1).type (evA 1).code v
        ∉ (singleKeyHandler.notifyTrace
            (singleKeyHandler.notify singleKeyHandler.initState (evA 1) false).state
            []).2) ∧
      (singleKeyHandler.notify (singleKeyHandler.notifyTrace
          (singleKeyHandler.notify singleKeyHandler.initState (evA 1) false).state
          []).1 (evA 0) false).result = true ∧
      alGet (singleKeyHandler.notify (singleKeyHandler.notifyTrace
          (singleKeyHandler.notify singleKeyHandler.initState (evA 1) false).state
          []).1 (evA 0) false).state.requires_a_release (evA 1).type_and_code
        = none ∧
      (∀ o v, Effect.write o (evA 1).type (evA 1).code v
        ∉ (singleKeyHandler.notify (singleKeyHandler.notifyTrace
            (singleKeyHandler.notify singleKeyHandler.initState (evA 1) false).state
            []).1 (evA 0) false).effects) :=
  release_balance_amended singleKeyHandler singleKeyHandler.initState (evA 1) (evA 0)
    false false [] (by decide) (by decide) (by decide) (by decide)
    (by simp) (by decide) (by decide) (by decide) (by decide)

end KeyMapper
